import Mathlib

/-!
Verification development for the `musical` repository (a dual-mode metronome
and chromatic tuner).  The definitions below are shallow embeddings of the
TypeScript source:

* the metronome lookahead scheduler of `src/services/audioEngine.ts`
  (`startMetronome` / `stopMetronome` / `updateBPM` / `nextNote` / `scheduler`),
  modelled over `ℚ` with explicit state passing; the browser event loop is
  modelled by a list of armed `setTimeout` ids and an explicit "fire" step;
* the pitch-detection path (`autoCorrelate` / `detectPitch` / `freqToNote`),
  modelled over `ℝ` with an explicit JavaScript number type `JNum` carrying
  `NaN` and the two infinities, because the source reads an array out of
  bounds (yielding `undefined`, hence `NaN` in arithmetic) and takes `Math.log`
  of non-positive numbers;
* the inbound-telemetry parser of `src/App.tsx`, modelled over `ℚ` with a
  `NaN`-carrying number type `JQ` and structurally recursive string splitting
  mirroring JavaScript `split` / `trim` / `parseFloat` / `parseInt`.
-/

namespace Musical

/-! ## Metronome scheduler (src/services/audioEngine.ts, metronome half)

State of the `AudioEngine` metronome.  `nextNoteTime`, `timerID`,
`isMetronomePlaying`, `bpm` and `currentBeatInBar` are the fields of the
TypeScript class.  `armedTimers` and `nextTimerId` model the browser's pending
`setTimeout` callbacks: `window.setTimeout` returns a fresh positive id and
arms it; `window.clearTimeout` disarms one id.  Beat numbers handed to
`scheduleNote` (and hence to the `onBeat` callback) are collected in a list. -/

structure MetroState where
  nextNoteTime : ℚ
  timerID : Option ℕ
  isMetronomePlaying : Bool
  bpm : ℚ
  currentBeatInBar : ℤ
  armedTimers : List ℕ
  nextTimerId : ℕ

/-- Initial engine state: `bpm = 120`, `currentBeatInBar = 0`, nothing armed.
Timer ids start at 1 (browser `setTimeout` ids are positive). -/
def initState : MetroState :=
  { nextNoteTime := 0, timerID := none, isMetronomePlaying := false,
    bpm := 120, currentBeatInBar := 0, armedTimers := [], nextTimerId := 1 }

/-- `nextNote()`: advance `nextNoteTime` by `60 / bpm` seconds, increment the
beat cursor and wrap it to 1 when it exceeds 4. -/
def nextNote (s : MetroState) : MetroState :=
  { s with
    nextNoteTime := s.nextNoteTime + 60 / s.bpm,
    currentBeatInBar :=
      if 4 < s.currentBeatInBar + 1 then 1 else s.currentBeatInBar + 1 }

/-- The catch-up `while` loop of `scheduler()`: while `nextNoteTime` is within
the 0.1 s lookahead of the current audio-clock time, schedule a note (emitting
the displayed beat number `currentBeatInBar === 0 ? 1 : currentBeatInBar`) and
advance.  The loop is embedded with explicit fuel; `none` means the fuel ran
out with the loop condition still true (the loop did not terminate within
`fuel` iterations). -/
def schedulerLoop : ℕ → ℚ → MetroState → List ℤ → Option (MetroState × List ℤ)
  | 0, now, s, acc => if s.nextNoteTime < now + 1/10 then none else some (s, acc)
  | n + 1, now, s, acc =>
    if s.nextNoteTime < now + 1/10 then
      schedulerLoop n now (nextNote s)
        (acc ++ [if s.currentBeatInBar = 0 then 1 else s.currentBeatInBar])
    else some (s, acc)

/-- One `scheduler()` pass at audio-clock time `now`: run the catch-up loop,
then (still inside `scheduler`) re-arm a fresh `setTimeout` iff
`isMetronomePlaying`.  The previous `timerID` is overwritten, but the timeout
it named stays armed unless it was cleared. -/
def scheduler (fuel : ℕ) (now : ℚ) (s : MetroState) : Option (MetroState × List ℤ) :=
  match schedulerLoop fuel now s [] with
  | none => none
  | some (s1, beats) =>
    if s1.isMetronomePlaying then
      some ({ s1 with
                timerID := some s1.nextTimerId,
                armedTimers := s1.armedTimers ++ [s1.nextTimerId],
                nextTimerId := s1.nextTimerId + 1 }, beats)
    else some (s1, beats)

/-- The state updates `startMetronome(bpm, onBeat)` performs before its call to
`scheduler()`: store the tempo verbatim, set the playing flag, reset the cursor
to 0 and set `nextNoteTime` to `ctx.currentTime + 0.1`. -/
def startMetronomeState (bpm : ℚ) (now : ℚ) (s : MetroState) : MetroState :=
  { s with bpm := bpm, isMetronomePlaying := true,
           currentBeatInBar := 0, nextNoteTime := now + 1/10 }

/-- `startMetronome(bpm, onBeat)` at audio-clock time `now`. -/
def startMetronome (bpm : ℚ) (fuel : ℕ) (now : ℚ) (s : MetroState) :
    Option (MetroState × List ℤ) :=
  scheduler fuel now (startMetronomeState bpm now s)

/-- `stopMetronome()`: clear the playing flag; if a timer id is stored, clear
that one pending timeout.  Nothing else is touched. -/
def stopMetronome (s : MetroState) : MetroState :=
  let s1 := { s with isMetronomePlaying := false }
  match s1.timerID with
  | some t => { s1 with armedTimers := s1.armedTimers.erase t, timerID := none }
  | none => s1

/-- `updateBPM(bpm)`: store the tempo verbatim. -/
def updateBPM (bpm : ℚ) (s : MetroState) : MetroState := { s with bpm := bpm }

/-- A pending `setTimeout` firing at audio-clock time `now`: the timeout is
consumed and the armed `scheduler()` pass runs. -/
def fireTimer (t : ℕ) (fuel : ℕ) (now : ℚ) (s : MetroState) :
    Option (MetroState × List ℤ) :=
  if t ∈ s.armedTimers then scheduler fuel now { s with armedTimers := s.armedTimers.erase t }
  else some (s, [])

/-- Drive the single timeout chain: at each given audio-clock time, fire the
currently stored timer id (the chain re-arms itself while playing),
accumulating all emitted beat numbers. -/
def runPolls : List ℚ → ℕ → MetroState → List ℤ → Option (MetroState × List ℤ)
  | [], _, s, acc => some (s, acc)
  | now :: rest, fuel, s, acc =>
    match s.timerID with
    | none => some (s, acc)
    | some t =>
      match fireTimer t fuel now s with
      | none => none
      | some (s1, beats) => runPolls rest fuel s1 (acc ++ beats)

/-! ## JavaScript number model

The pitch-detection path manufactures `NaN` (out-of-bounds array read) and
infinities (`Math.log(0)`), so its embedding works with an explicit JavaScript
number type over `ℝ`.  Signed zero is not modelled (no claim depends on it). -/

inductive JNum where
  | nan : JNum
  | posInf : JNum
  | negInf : JNum
  | fin : ℝ → JNum

open JNum

/-- JavaScript `+`. -/
noncomputable def jadd : JNum → JNum → JNum
  | nan, _ => nan
  | posInf, nan => nan
  | posInf, posInf => posInf
  | posInf, negInf => nan
  | posInf, fin _ => posInf
  | negInf, nan => nan
  | negInf, posInf => nan
  | negInf, negInf => negInf
  | negInf, fin _ => negInf
  | fin _, nan => nan
  | fin _, posInf => posInf
  | fin _, negInf => negInf
  | fin a, fin b => fin (a + b)

/-- JavaScript binary `-`. -/
noncomputable def jsub : JNum → JNum → JNum
  | nan, _ => nan
  | posInf, nan => nan
  | posInf, posInf => nan
  | posInf, negInf => posInf
  | posInf, fin _ => posInf
  | negInf, nan => nan
  | negInf, posInf => negInf
  | negInf, negInf => nan
  | negInf, fin _ => negInf
  | fin _, nan => nan
  | fin _, posInf => negInf
  | fin _, negInf => posInf
  | fin a, fin b => fin (a - b)

/-- JavaScript `*`. -/
noncomputable def jmul : JNum → JNum → JNum
  | nan, _ => nan
  | posInf, nan => nan
  | posInf, posInf => posInf
  | posInf, negInf => negInf
  | posInf, fin b => if 0 < b then posInf else if b < 0 then negInf else nan
  | negInf, nan => nan
  | negInf, posInf => negInf
  | negInf, negInf => posInf
  | negInf, fin b => if 0 < b then negInf else if b < 0 then posInf else nan
  | fin _, nan => nan
  | fin a, posInf => if 0 < a then posInf else if a < 0 then negInf else nan
  | fin a, negInf => if 0 < a then negInf else if a < 0 then posInf else nan
  | fin a, fin b => fin (a * b)

/-- JavaScript `/`. -/
noncomputable def jdiv : JNum → JNum → JNum
  | nan, _ => nan
  | posInf, nan => nan
  | posInf, posInf => nan
  | posInf, negInf => nan
  | posInf, fin b => if 0 ≤ b then posInf else negInf
  | negInf, nan => nan
  | negInf, posInf => nan
  | negInf, negInf => nan
  | negInf, fin b => if 0 ≤ b then negInf else posInf
  | fin _, nan => nan
  | fin _, posInf => fin 0
  | fin _, negInf => fin 0
  | fin a, fin b =>
    if b = 0 then (if a = 0 then nan else if 0 < a then posInf else negInf)
    else fin (a / b)

/-- JavaScript `<` (any comparison involving `NaN` is false). -/
def jlt : JNum → JNum → Prop
  | nan, _ => False
  | posInf, _ => False
  | negInf, nan => False
  | negInf, posInf => True
  | negInf, negInf => False
  | negInf, fin _ => True
  | fin _, nan => False
  | fin _, posInf => True
  | fin _, negInf => False
  | fin a, fin b => a < b

/-- `Math.sqrt` (negative argument yields `NaN`). -/
noncomputable def jsqrt : JNum → JNum
  | nan => nan
  | posInf => posInf
  | negInf => nan
  | fin x => if 0 ≤ x then fin (Real.sqrt x) else nan

/-- `Math.log` (natural logarithm; `log 0 = -∞`, log of a negative is `NaN`). -/
noncomputable def jlog : JNum → JNum
  | nan => nan
  | posInf => posInf
  | negInf => nan
  | fin x => if 0 < x then fin (Real.log x) else if x = 0 then negInf else nan

/-- `Math.round` on a finite value: round half up, i.e. `⌊x + 1/2⌋`. -/
noncomputable def jsRound (x : ℝ) : ℝ := ((⌊x + 1/2⌋ : ℤ) : ℝ)

/-- `Math.round`. -/
noncomputable def jround : JNum → JNum
  | nan => nan
  | posInf => posInf
  | negInf => negInf
  | fin x => fin (jsRound x)

/-- `Math.floor`. -/
noncomputable def jfloor : JNum → JNum
  | nan => nan
  | posInf => posInf
  | negInf => negInf
  | fin x => fin ((⌊x⌋ : ℤ) : ℝ)

/-- Truncation toward zero, as used by the JavaScript `%` operator. -/
noncomputable def jsTrunc (x : ℝ) : ℤ := if 0 ≤ x then ⌊x⌋ else ⌈x⌉

/-- JavaScript `%` (remainder with the sign of the dividend). -/
noncomputable def jmod : JNum → JNum → JNum
  | nan, _ => nan
  | posInf, _ => nan
  | negInf, _ => nan
  | fin _, nan => nan
  | fin a, posInf => fin a
  | fin a, negInf => fin a
  | fin a, fin b =>
    if b = 0 then nan else fin (a - b * ((jsTrunc (a / b) : ℤ) : ℝ))

/-- JavaScript array read `l[i]` with an integer index on a number array:
out-of-bounds (including negative) yields `undefined`, which behaves as `NaN`
in the arithmetic it is used in. -/
noncomputable def jsIndex (l : List ℝ) (i : ℤ) : JNum :=
  if 0 ≤ i then
    match l.get? i.toNat with
    | some x => fin x
    | none => nan
  else nan

/-- JavaScript array read on a string array: any index that is not an integer
in `[0, length)` (for instance `NaN`) yields `undefined`, modelled as `none`. -/
noncomputable def jsIndexS (l : List String) (i : JNum) : Option String :=
  match i with
  | nan => none
  | posInf => none
  | negInf => none
  | fin x => if 0 ≤ x ∧ x = ((⌊x⌋ : ℤ) : ℝ) then l.get? (⌊x⌋.toNat) else none

/-! ## Pitch detector (src/services/audioEngine.ts, tuner half) -/

/-- The running sum `rms += buf[i] * buf[i]` of `autoCorrelate`. -/
noncomputable def sumsq : List ℝ → ℝ
  | [] => 0
  | x :: xs => x * x + sumsq xs

/-- The RMS value computed by `autoCorrelate`:
`Math.sqrt(rms / buf.length)`. -/
noncomputable def rmsOf (buf : List ℝ) : JNum :=
  jsqrt (jdiv (fin (sumsq buf)) (fin (buf.length : ℝ)))

/-- The inner loop of `autoCorrelate` at a given lag:
`Σ_{i < bufferLength - offset} |buf[i] - buf[i + offset]|`. -/
noncomputable def diffSum (buf : List ℝ) (offset : ℕ) : ℝ :=
  ((List.range (buf.length - offset)).map
    (fun i => |buf.getD i 0 - buf.getD (i + offset) 0|)).sum

/-- The mutable locals of the `autoCorrelate` lag loop. -/
structure AcSt where
  best_offset : ℤ
  best_correlation : ℝ
  foundGoodCorrelation : Bool
  correlations : List ℝ

open Classical in
/-- The lag loop of `autoCorrelate`, one constructor step per `offset`
iteration (`fuel` counts the remaining iterations, starting at
`bufferLength`).  The result's second component is the returned JavaScript
number; the first component records the value of `best_offset` at the moment
the early-return sub-sample-refinement branch fires (`none` if the loop ran to
completion), so that the indices read by the refinement can be stated. -/
noncomputable def acGo (buf : List ℝ) (sampleRate : ℝ) :
    ℕ → ℕ → AcSt → Option ℤ × JNum
  | 0, _, st =>
    if (1/100 : ℝ) < st.best_correlation then
      (none, jdiv (fin sampleRate) (fin (st.best_offset : ℝ)))
    else (none, fin (-1))
  | fuel + 1, offset, st =>
    let correlation : ℝ := 1 - diffSum buf offset / (buf.length : ℝ)
    let correlations := st.correlations.set offset correlation
    if (9/10 : ℝ) < correlation ∧ st.best_correlation < correlation then
      acGo buf sampleRate fuel (offset + 1)
        { best_offset := (offset : ℤ), best_correlation := correlation,
          foundGoodCorrelation := true, correlations := correlations }
    else if st.foundGoodCorrelation then
      let shift := jdiv (jsub (jsIndex correlations (st.best_offset + 1))
                              (jsIndex correlations (st.best_offset - 1)))
                        (jsIndex correlations st.best_offset)
      (some st.best_offset,
        jdiv (fin sampleRate) (jadd (fin (st.best_offset : ℝ)) (jmul (fin 8) shift)))
    else acGo buf sampleRate fuel (offset + 1) { st with correlations := correlations }

open Classical in
/-- `autoCorrelate(buf, sampleRate)`: RMS noise gate at 0.01, then the lag
loop starting from `best_offset = -1`, `best_correlation = 0`,
`foundGoodCorrelation = false` and a zero-filled `correlations` array. -/
noncomputable def autoCorrelate (buf : List ℝ) (sampleRate : ℝ) : Option ℤ × JNum :=
  if jlt (rmsOf buf) (fin (1/100)) then (none, fin (-1))
  else
    acGo buf sampleRate buf.length 0
      { best_offset := -1, best_correlation := 0, foundGoodCorrelation := false,
        correlations := List.replicate buf.length 0 }

/-- The `noteStrings` table of `freqToNote`: the twelve pitch-class names
starting at C (written as two halves joined by append). -/
def noteStrings : List String :=
  ["C", "C#", "D", "D#", "E", "F"] ++ ["F#", "G", "G#", "A", "A#", "B"]

/-- Result record of `freqToNote` (`note` is `none` when the table lookup
yields `undefined`). -/
structure NoteResult where
  note : Option String
  cents : JNum

/-- `freqToNote(frequency)`:
`pitch = 12 * (Math.log(frequency / 440) / Math.log(2)) + 69`,
`roundedPitch = Math.round(pitch)`, `noteIndex = roundedPitch % 12`,
`cents = Math.floor((pitch - roundedPitch) * 100)`,
returning `{ note: noteStrings[noteIndex], cents }`. -/
noncomputable def freqToNote (frequency : JNum) : NoteResult :=
  let pitch :=
    jadd (jmul (fin 12) (jdiv (jlog (jdiv frequency (fin 440))) (jlog (fin 2)))) (fin 69)
  let roundedPitch := jround pitch
  let noteIndex := jmod roundedPitch (fin 12)
  let cents := jfloor (jmul (jsub pitch roundedPitch) (fin 100))
  { note := jsIndexS noteStrings noteIndex, cents := cents }

open Classical in
/-- One `detectPitch()` cycle on a captured frame: run `autoCorrelate` and,
only `if (freq > -1)`, hand `(freq, note, cents)` to the tuner callback
(modelled as `some …`); otherwise emit nothing. -/
noncomputable def detectPitch (buf : List ℝ) (sampleRate : ℝ) :
    Option (JNum × NoteResult) :=
  let freq := (autoCorrelate buf sampleRate).2
  if jlt (fin (-1)) freq then some (freq, freqToNote freq) else none

/-- The continuous MIDI-style pitch number of the specification,
`12 * log2(freq / 440) + 69`, written as the source writes it. -/
noncomputable def pitchNumber (freq : ℝ) : ℝ :=
  12 * (Real.log (freq / 440) / Real.log 2) + 69

/-- A frame of the 220 Hz sine `sin(2π · 220 · n / 880)` sampled at 880 Hz
(two full periods, amplitude 1). -/
noncomputable def sineFrame : List ℝ := [0, 1, 0, -1, 0, 1, 0, -1]

/-! ## Inbound telemetry parser (src/App.tsx, onDataReceived handler)

The handler works on short ASCII lines, so JavaScript numbers are modelled
over `ℚ` with an explicit `NaN`, and the string operations (`trim`,
`split`, `startsWith`, `parseFloat`, `parseInt`) are embedded as structurally
recursive functions on character lists so the whole parser is executable. -/

inductive JQ where
  | nan : JQ
  | q : ℚ → JQ
deriving DecidableEq

/-- Whitespace for JavaScript `String.prototype.trim`. -/
def jsIsWS (c : Char) : Bool :=
  c == ' ' || c == '\t' || c == '\n' || c == '\r'

/-- JavaScript `trim()`. -/
def jsTrim (s : String) : String :=
  String.mk (((s.data.dropWhile jsIsWS).reverse.dropWhile jsIsWS).reverse)

/-- Split a character list at every occurrence of `sep` (JavaScript
`split(sep)` semantics: `"" → [""]`, trailing separator yields a trailing
empty piece). -/
def splitOnChar (sep : Char) : List Char → List (List Char)
  | [] => [[]]
  | c :: cs =>
    let r := splitOnChar sep cs
    if c == sep then [] :: r
    else
      match r with
      | [] => [[c]]
      | h :: t => (c :: h) :: t

/-- JavaScript `s.split(sep)` for a one-character separator. -/
def jsSplit (sep : Char) (s : String) : List String :=
  (splitOnChar sep s.data).map String.mk

/-- Does `cs` start with `pat`? -/
def listStarts : List Char → List Char → Bool
  | _, [] => true
  | [], _ :: _ => false
  | c :: cs, d :: ds => c == d && listStarts cs ds

/-- JavaScript `s.startsWith(pat)`. -/
def jsStarts (s pat : String) : Bool := listStarts s.data pat.data

/-- Consume a maximal run of decimal digits, returning their values and the
rest of the input. -/
def takeDigits : List Char → List ℕ × List Char
  | [] => ([], [])
  | c :: cs =>
    if c.isDigit then
      let r := takeDigits cs
      ((c.toNat - 48) :: r.1, r.2)
    else ([], c :: cs)

/-- Assemble a digit list into a natural number. -/
def natOfDigits (ds : List ℕ) : ℕ := ds.foldl (fun acc d => 10 * acc + d) 0

/-- JavaScript `parseFloat` restricted to the plain decimal notation the
telemetry protocol uses: optional sign, integer digits, optional fractional
digits; no digits at all gives `NaN`.  (Exponents and `Infinity` literals are
outside the protocol and not modelled.) -/
def jsParseFloat (s : String) : JQ :=
  let cs := (jsTrim s).data
  let sc : ℚ × List Char :=
    match cs with
    | '-' :: rest => (-1, rest)
    | '+' :: rest => (1, rest)
    | _ => (1, cs)
  let ip := takeDigits sc.2
  let fp : List ℕ :=
    match ip.2 with
    | '.' :: rest => (takeDigits rest).1
    | _ => []
  if ip.1.isEmpty ∧ fp.isEmpty then JQ.nan
  else JQ.q (sc.1 * ((natOfDigits ip.1 : ℚ) + (natOfDigits fp : ℚ) / 10 ^ fp.length))

/-- JavaScript `parseInt` in base 10: optional sign, then a maximal run of
leading digits; no digits gives `NaN`. -/
def jsParseInt (s : String) : JQ :=
  let cs := (jsTrim s).data
  let sc : ℚ × List Char :=
    match cs with
    | '-' :: rest => (-1, rest)
    | '+' :: rest => (1, rest)
    | _ => (1, cs)
  let ip := takeDigits sc.2
  if ip.1.isEmpty then JQ.nan else JQ.q (sc.1 * (natOfDigits ip.1 : ℚ))

/-- JavaScript `x || d` where `x` is a possibly-`undefined` string:
`undefined` and the (falsy) empty string both give the default. -/
def jsOrStr : Option String → String → String
  | none, d => d
  | some s, d => if s = "" then d else s

/-- `parts.find(p => p.startsWith(tag))?.split(':')[1]` — locate a field of
the pipe-separated line and take what follows the first colon. -/
def findField (parts : List String) (tag : String) : Option String :=
  (parts.find? (fun p => jsStarts p tag)).bind (fun p => (jsSplit ':' p).get? 1)

/-- The tuner record `setTunerData` receives. -/
structure TunerMsg where
  frequency : JQ
  noteName : String
  cents : JQ
deriving DecidableEq

/-- What one inbound line does to the application state. -/
inductive HandlerResult where
  | beat : JQ → HandlerResult
  | tuner : TunerMsg → HandlerResult
  | ignored : HandlerResult
deriving DecidableEq

/-- The `onDataReceived` handler of `src/App.tsx`:
`parts = data.trim().split('|')`; a line starting with `"BEAT:"` updates the
beat from `parseInt(data.split(':')[1])`; otherwise a line starting with
`"FREQ:"` builds a tuner record whose `FREQ` / `NOTE` / `CENTS` fields are
each located independently in `parts` and defaulted (`'0'` / `''`) when
absent; any other line does nothing. -/
def onDataReceived (data : String) : HandlerResult :=
  let parts := jsSplit '|' (jsTrim data)
  if jsStarts data "BEAT:" then
    HandlerResult.beat
      (match (jsSplit ':' data).get? 1 with
       | some s => jsParseInt s
       | none => JQ.nan)
  else if jsStarts data "FREQ:" then
    let freq := jsParseFloat (jsOrStr (findField parts "FREQ:") "0")
    let note := jsOrStr (findField parts "NOTE:") ""
    let cents := jsParseInt (jsOrStr (findField parts "CENTS:") "0")
    HandlerResult.tuner { frequency := freq, noteName := note, cents := cents }
  else HandlerResult.ignored

/-! ## Helper lemmas -/

lemma nextNote_bpm (s : MetroState) : (nextNote s).bpm = s.bpm := rfl

lemma nextNote_time (s : MetroState) :
    (nextNote s).nextNoteTime = s.nextNoteTime + 60 / s.bpm := rfl

/-- The catch-up loop returns within `n` iterations as soon as `n` beat
intervals are enough to move `nextNoteTime` past the lookahead horizon. -/
lemma schedulerLoop_isSome (now : ℚ) :
    ∀ (n : ℕ) (s : MetroState) (acc : List ℤ), 0 < s.bpm →
      now + 1/10 ≤ s.nextNoteTime + n * (60 / s.bpm) →
      schedulerLoop n now s acc ≠ none := by
  intro n
  induction n with
  | zero =>
    intro s acc _ h
    have h0 : ¬ s.nextNoteTime < now + 1/10 := by
      push_cast at h
      exact not_lt.mpr (by linarith)
    simp only [schedulerLoop]
    rw [if_neg h0]
    simp
  | succ n ih =>
    intro s acc hb h
    simp only [schedulerLoop]
    by_cases hc : s.nextNoteTime < now + 1/10
    · rw [if_pos hc]
      apply ih _ _ (by rw [nextNote_bpm]; exact hb)
      rw [nextNote_bpm, nextNote_time]
      push_cast at h ⊢
      nlinarith [h]
    · rw [if_neg hc]
      simp

open JNum

lemma jsub_nan_right (x : JNum) : jsub x nan = nan := by cases x <;> rfl

lemma jmul_nan_right (x : JNum) : jmul x nan = nan := by cases x <;> rfl

lemma jadd_nan_right (x : JNum) : jadd x nan = nan := by cases x <;> rfl

lemma diffSum_zero (buf : List ℝ) : diffSum buf 0 = 0 := by
  unfold diffSum
  apply List.sum_eq_zero
  intro x hx
  simp only [List.mem_map] at hx
  obtain ⟨i, _, rfl⟩ := hx
  simp

lemma diffSum_nonneg (buf : List ℝ) (k : ℕ) : 0 ≤ diffSum buf k := by
  unfold diffSum
  apply List.sum_nonneg
  intro x hx
  simp only [List.mem_map] at hx
  obtain ⟨i, _, rfl⟩ := hx
  exact abs_nonneg _

/-- The heart of the `autoCorrelate` analysis: on any buffer of length ≥ 2
(once past the RMS gate), the lag-0 iteration computes correlation exactly 1
and fixes `best_offset := 0`, `foundGoodCorrelation := true`; the lag-1
correlation cannot exceed 1, so the `else if` refinement branch fires
immediately, reads `correlations[-1]` (out of bounds, `NaN`), and the whole
call returns `NaN`, with `best_offset = 0` recorded at the refinement site. -/
lemma acGo_gate (buf : List ℝ) (sr : ℝ) (h2 : 2 ≤ buf.length) :
    acGo buf sr buf.length 0
      { best_offset := -1, best_correlation := 0, foundGoodCorrelation := false,
        correlations := List.replicate buf.length 0 } = (some 0, nan) := by
  obtain ⟨m, hm⟩ : ∃ m, buf.length = m + 1 + 1 := ⟨buf.length - 2, by omega⟩
  have hlen : (0 : ℝ) < (buf.length : ℝ) := by
    have h0 : 0 < buf.length := by omega
    exact_mod_cast h0
  rw [hm]
  rw [acGo]
  have hcorr0 : 1 - diffSum buf 0 / (buf.length : ℝ) = 1 := by
    rw [diffSum_zero, zero_div, sub_zero]
  rw [hcorr0]
  rw [if_pos (by constructor <;> norm_num)]
  rw [acGo]
  set c1 : ℝ := 1 - diffSum buf 1 / (buf.length : ℝ) with hc1
  have hc1le : c1 ≤ 1 := by
    rw [hc1]
    have hd : 0 ≤ diffSum buf 1 / (buf.length : ℝ) :=
      div_nonneg (diffSum_nonneg buf 1) (le_of_lt hlen)
    linarith
  rw [if_neg (by
    intro hcontra
    exact absurd hcontra.2 (not_lt.mpr hc1le))]
  rw [if_pos rfl]
  simp only [jsIndex, Nat.cast_zero]
  rw [if_neg (by norm_num : ¬ (0 : ℤ) ≤ 0 - 1)]
  rw [jsub_nan_right]
  simp only [jdiv]
  rw [jmul_nan_right, jadd_nan_right]

lemma autoCorrelate_gate (buf : List ℝ) (sr : ℝ) (h2 : 2 ≤ buf.length)
    (hg : ¬ jlt (rmsOf buf) (fin (1/100))) :
    autoCorrelate buf sr = (some 0, nan) := by
  unfold autoCorrelate
  rw [if_neg hg]
  exact acGo_gate buf sr h2

lemma sumsq_pair : sumsq [(1:ℝ), -1] = 2 := by norm_num [sumsq]

lemma rms_pair : rmsOf [(1:ℝ), -1] = fin 1 := by
  unfold rmsOf
  rw [sumsq_pair]
  rw [show (([(1:ℝ), -1]).length : ℝ) = 2 by norm_num]
  rw [show jdiv (fin (2:ℝ)) (fin 2) = fin 1 by simp only [jdiv]; norm_num]
  simp [jsqrt, Real.sqrt_one]

lemma gate_pair : ¬ jlt (rmsOf [(1:ℝ), -1]) (fin (1/100)) := by
  rw [rms_pair]
  simp only [jlt]
  norm_num

lemma sumsq_sine : sumsq sineFrame = 4 := by norm_num [sumsq, sineFrame]

lemma rms_sine : rmsOf sineFrame = fin (Real.sqrt (1/2)) := by
  unfold rmsOf
  rw [sumsq_sine]
  rw [show ((sineFrame.length : ℝ)) = 8 by norm_num [sineFrame]]
  rw [show jdiv (fin (4:ℝ)) (fin 8) = fin (1/2) by simp only [jdiv]; norm_num]
  simp [jsqrt]

lemma gate_sine : ¬ jlt (rmsOf sineFrame) (fin (1/100)) := by
  rw [rms_sine]
  simp only [jlt]
  intro hcontra
  have h1 : Real.sqrt (1/10000) ≤ Real.sqrt (1/2) := Real.sqrt_le_sqrt (by norm_num)
  have h2 : Real.sqrt (1/10000) = 1/100 := by
    rw [show (1/10000 : ℝ) = (1/100)^2 by norm_num]
    exact Real.sqrt_sq (by norm_num)
  linarith

lemma jdiv_fin_fin (a b : ℝ) (hb : b ≠ 0) : jdiv (fin a) (fin b) = fin (a / b) := by
  simp only [jdiv]
  rw [if_neg hb]

lemma jlog_fin_pos (x : ℝ) (hx : 0 < x) : jlog (fin x) = fin (Real.log x) := by
  simp only [jlog]
  rw [if_pos hx]

/-- For a strictly positive finite frequency, every intermediate of
`freqToNote` is finite and the result is the rounded-pitch table lookup plus
the floored cents value. -/
lemma freqToNote_pos (f : ℝ) (hf : 0 < f) :
    freqToNote (fin f) =
      { note := jsIndexS noteStrings (jmod (fin (jsRound (pitchNumber f))) (fin 12)),
        cents := fin ((⌊(pitchNumber f - jsRound (pitchNumber f)) * 100⌋ : ℤ) : ℝ) } := by
  unfold freqToNote
  rw [jdiv_fin_fin f 440 (by norm_num)]
  rw [jlog_fin_pos _ (div_pos hf (by norm_num))]
  rw [jlog_fin_pos 2 (by norm_num)]
  rw [jdiv_fin_fin _ _ (ne_of_gt (Real.log_pos (by norm_num)))]
  rfl

/-- `Math.round(x) = ⌊x + 1/2⌋` puts `x - round(x)` in `[-1/2, 1/2)`, so the
floored value of `(x - round(x)) * 100` is in `[-50, 49]`. -/
lemma cents_bounds (p : ℝ) :
    (-50 : ℤ) ≤ ⌊(p - jsRound p) * 100⌋ ∧ ⌊(p - jsRound p) * 100⌋ < 50 := by
  have h1 : ((⌊p + 1/2⌋ : ℤ) : ℝ) ≤ p + 1/2 := Int.floor_le _
  have h2 : p + 1/2 < (⌊p + 1/2⌋ : ℤ) + 1 := Int.lt_floor_add_one _
  unfold jsRound
  constructor
  · apply Int.le_floor.mpr
    push_cast
    nlinarith
  · apply Int.floor_lt.mpr
    push_cast
    nlinarith

lemma pitchNumber_440 : pitchNumber 440 = 69 := by
  unfold pitchNumber
  rw [div_self (by norm_num : (440:ℝ) ≠ 0), Real.log_one]
  norm_num

lemma jsRound_69 : jsRound (69 : ℝ) = 69 := by
  unfold jsRound
  rw [show ⌊(69:ℝ) + 1/2⌋ = 69 from Int.floor_eq_iff.mpr (by norm_num)]
  norm_num

lemma freqToNote_440 : freqToNote (fin 440) = { note := some "A", cents := fin 0 } := by
  rw [freqToNote_pos 440 (by norm_num), pitchNumber_440, jsRound_69]
  have hmod : jmod (fin (69:ℝ)) (fin 12) = fin 9 := by
    simp only [jmod]
    rw [if_neg (by norm_num : (12:ℝ) ≠ 0)]
    unfold jsTrunc
    rw [if_pos (by norm_num : (0:ℝ) ≤ 69/12)]
    rw [show ⌊(69:ℝ)/12⌋ = 5 from Int.floor_eq_iff.mpr (by norm_num)]
    norm_num
  rw [hmod]
  have hidx : jsIndexS noteStrings (fin 9) = some "A" := by
    simp only [jsIndexS]
    rw [show ⌊(9:ℝ)⌋ = 9 from Int.floor_eq_iff.mpr (by norm_num)]
    rw [if_pos (by norm_num)]
    rfl
  rw [hidx]
  rw [show ((69:ℝ) - 69) * 100 = 0 by norm_num]
  rw [Int.floor_zero]
  norm_num

lemma freqToNote_zero : freqToNote (fin 0) = { note := none, cents := nan } := by
  unfold freqToNote
  rw [jdiv_fin_fin 0 440 (by norm_num)]
  rw [show (0:ℝ)/440 = 0 by norm_num]
  rw [show jlog (fin (0:ℝ)) = negInf by
    simp only [jlog]
    rw [if_neg (lt_irrefl 0)]
    simp]
  rw [jlog_fin_pos 2 (by norm_num)]
  rw [show jdiv negInf (fin (Real.log 2)) = negInf by
    simp only [jdiv]
    rw [if_pos (Real.log_nonneg (by norm_num))]]
  rw [show jmul (fin (12:ℝ)) negInf = negInf by
    simp only [jmul]
    rw [if_pos (by norm_num : (0:ℝ) < 12)]]
  rfl

lemma freqToNote_neg100 : freqToNote (fin (-100)) = { note := none, cents := nan } := by
  unfold freqToNote
  rw [jdiv_fin_fin (-100) 440 (by norm_num)]
  rw [show jlog (fin ((-100:ℝ)/440)) = nan by
    simp only [jlog]
    rw [if_neg (by norm_num), if_neg (by norm_num)]]
  rfl

lemma pf440 : jsParseFloat "440.0" = JQ.q 440 := by
  rw [show jsParseFloat "440.0"
      = JQ.q (1 * ((natOfDigits [4,4,0] : ℚ)
          + (natOfDigits [0] : ℚ) / 10 ^ ([0] : List ℕ).length)) from rfl]
  norm_num [natOfDigits]

lemma pf0 : jsParseFloat "0" = JQ.q 0 := by
  rw [show jsParseFloat "0"
      = JQ.q (1 * ((natOfDigits [0] : ℚ)
          + (natOfDigits ([] : List ℕ) : ℚ) / 10 ^ ([] : List ℕ).length)) from rfl]
  norm_num [natOfDigits]

lemma pi0 : jsParseInt "0" = JQ.q 0 := by
  rw [show jsParseInt "0" = JQ.q (1 * (natOfDigits [0] : ℚ)) from rfl]
  norm_num [natOfDigits]

/-! ## Claims -/

/-- Claim C1: the spec says a gate-passing sine frame (e.g. 220 Hz) yields an
estimate within ±1 % with note "A"; in fact, for EVERY frame of length ≥ 2
that passes the 0.01 RMS gate, `detectPitch` emits nothing at all: the lag-0
iteration computes correlation exactly 1 and fixes `best_offset = 0`, the
refinement fires at lag 1 and reads `correlations[-1]` (undefined, `NaN`), so
`autoCorrelate` returns `NaN` and the `freq > -1` guard rejects it. -/
theorem detectPitch_emits_no_estimate (buf : List ℝ) (sampleRate : ℝ)
    (h2 : 2 ≤ buf.length) (hg : ¬ jlt (rmsOf buf) (fin (1/100))) :
    detectPitch buf sampleRate = none := by
  unfold detectPitch
  rw [autoCorrelate_gate buf sampleRate h2 hg]
  rw [if_neg (by simp [jlt])]

/-- Witness for C1 at a concrete 220 Hz sine frame (sampled at 880 Hz,
amplitude 1, RMS √(1/2) ≥ 0.01): no estimate is emitted. -/
theorem detectPitch_emits_no_estimate_witness :
    (2 ≤ sineFrame.length ∧ ¬ jlt (rmsOf sineFrame) (fin (1/100)))
    ∧ detectPitch sineFrame 880 = none :=
  ⟨⟨by norm_num [sineFrame], gate_sine⟩,
    detectPitch_emits_no_estimate sineFrame 880 (by norm_num [sineFrame]) gate_sine⟩

/-- Claim C2: the spec says the beat numbers delivered from start are exactly
`1,2,3,4,1,…` with no consecutive repeats; in fact the first two scheduled
beats are both 1 (`currentBeatInBar` starts at 0, displayed as 1, and is then
incremented to 1 which again displays 1).  Starting at `bpm = 120` and firing
the timer chain at 25 ms and then every 500 ms, the emitted sequence is
`[1, 1, 2, 3, 4, 1]`. -/
theorem metronome_first_beats_repeat :
    ((startMetronome 120 8 0 initState).bind fun p =>
      runPolls [1/40, 21/40, 41/40, 61/40, 81/40, 101/40] 8 p.1 p.2).map Prod.snd
      = some [1, 1, 2, 3, 4, 1] := by
  norm_num [startMetronome, startMetronomeState, scheduler, schedulerLoop, nextNote,
    initState, runPolls, fireTimer, List.erase]

/-- Claim C3: the spec says `startMetronome` while already running cancels the
pending loop state first so a second concurrent loop is never spawned; in
fact `startMetronome` never clears the stored `timerID`, so after a second
`startMetronome` two timeouts are armed — and after the orphaned first one
fires (rescheduling itself, since `isMetronomePlaying` is true), two chains
are still armed. -/
theorem startMetronome_restart_spawns_second_loop :
    (((startMetronome 120 8 0 initState).bind fun p =>
      startMetronome 120 8 (1/4) p.1).map fun p => p.1.armedTimers.length) = some 2
    ∧ ((((startMetronome 120 8 0 initState).bind fun p =>
      startMetronome 120 8 (1/4) p.1).bind fun p => fireTimer 1 8 (3/10) p.1).map
        fun p => p.1.armedTimers.length) = some 2 := by
  constructor <;>
    norm_num [startMetronome, startMetronomeState, scheduler, schedulerLoop, nextNote,
      initState, fireTimer, List.erase]

/-- Counterexample for C4: stopping from a state whose cursor is 3 leaves the
cursor at 3, not 1. -/
theorem stopMetronome_cursor_not_reset_cex :
    (stopMetronome
      { nextNoteTime := 21/10, timerID := some 4, isMetronomePlaying := true,
        bpm := 120, currentBeatInBar := 3, armedTimers := [4], nextTimerId := 5
      }).currentBeatInBar = 3 ∧ (3 : ℤ) ≠ 1 := by
  exact ⟨rfl, by decide⟩

/-- Claim C4 (amended): `stopMetronome` clears the playing flag and the pending
timer but leaves the BeatCursor unchanged; the cursor is re-initialised (to 0,
displayed as beat 1) only by the next `startMetronome`. -/
theorem stopMetronome_leaves_cursor (s : MetroState) :
    (stopMetronome s).currentBeatInBar = s.currentBeatInBar
    ∧ (stopMetronome s).isMetronomePlaying = false
    ∧ (startMetronomeState s.bpm 0 s).currentBeatInBar = 0 := by
  unfold stopMetronome startMetronomeState
  cases s.timerID <;> simp

/-- Claim C5: the spec says a tempo ≤ 0 is rejected or clamped before
scheduling so the stored tempo is always strictly positive; in fact both
`updateBPM` and `startMetronome` store the tempo verbatim with no validation,
so the stored `bpm` used in `60 / bpm` can be 0 or negative. -/
theorem tempo_never_validated :
    (updateBPM 0 initState).bpm = 0
    ∧ (updateBPM (-5) initState).bpm = -5
    ∧ (startMetronomeState (-5) 0 initState).bpm = -5
    ∧ ¬ (0 : ℚ) < (updateBPM 0 initState).bpm := by
  exact ⟨rfl, rfl, rfl, by decide⟩

/-- Claim C6: for every strictly positive frequency, `freqToNote` computes
`cents = ⌊(pitchNumber − round(pitchNumber)) · 100⌋` with
`pitchNumber = 12 · log2(f/440) + 69` and JavaScript rounding
`round(x) = ⌊x + 1/2⌋`, and this value always lies in `[-50, 50)`; in
particular `freqToNote 440 = ("A", 0)`. -/
theorem freqToNote_cents_floor_in_range (f : ℝ) (hf : 0 < f) :
    (freqToNote (fin f)).cents
        = fin ((⌊(pitchNumber f - jsRound (pitchNumber f)) * 100⌋ : ℤ) : ℝ)
    ∧ (-50 : ℤ) ≤ ⌊(pitchNumber f - jsRound (pitchNumber f)) * 100⌋
    ∧ ⌊(pitchNumber f - jsRound (pitchNumber f)) * 100⌋ < 50
    ∧ freqToNote (fin 440) = { note := some "A", cents := fin 0 } := by
  refine ⟨?_, (cents_bounds _).1, (cents_bounds _).2, freqToNote_440⟩
  rw [freqToNote_pos f hf]

/-- Witness for C6 at frequency 440 Hz. -/
theorem freqToNote_cents_floor_in_range_witness :
    (0 : ℝ) < 440
    ∧ ((freqToNote (fin 440)).cents
          = fin ((⌊(pitchNumber 440 - jsRound (pitchNumber 440)) * 100⌋ : ℤ) : ℝ)
        ∧ (-50 : ℤ) ≤ ⌊(pitchNumber 440 - jsRound (pitchNumber 440)) * 100⌋
        ∧ ⌊(pitchNumber 440 - jsRound (pitchNumber 440)) * 100⌋ < 50
        ∧ freqToNote (fin 440) = { note := some "A", cents := fin 0 }) :=
  ⟨by norm_num, freqToNote_cents_floor_in_range 440 (by norm_num)⟩

/-- Claim C7: the spec says `freqToNote` fails gracefully (no note, zero
cents) on non-positive frequencies; in fact `Math.log` yields `-∞` at 0 and
`NaN` below 0, so the note lookup index is `NaN`, the note is `undefined`
(`none`) and `cents` is `NaN` — not zero. -/
theorem freqToNote_nonpositive_not_graceful :
    freqToNote (fin 0) = { note := none, cents := nan }
    ∧ freqToNote (fin (-100)) = { note := none, cents := nan }
    ∧ nan ≠ fin 0 :=
  ⟨freqToNote_zero, freqToNote_neg100, by simp⟩

/-- Counterexample for C8: a tuner line whose fields are reordered so that it
does not begin with `FREQ:` is ignored entirely — no estimate is produced,
contradicting the claim that reordered fields still yield a parsed
estimate. -/
theorem onData_reordered_line_ignored :
    onDataReceived "NOTE:A|FREQ:440.0|CENTS:0" = HandlerResult.ignored := by
  decide

/-- Claim C8 (amended): only a line that starts with `FREQ:` is dispatched as
a tuner line; within such a line the `FREQ` / `NOTE` / `CENTS` fields are
located independently of order and defaulted (`0` / empty string) when
absent. -/
theorem onData_freq_dispatch_tolerant :
    onDataReceived "FREQ:440.0|NOTE:A|CENTS:0"
      = HandlerResult.tuner { frequency := JQ.q 440, noteName := "A", cents := JQ.q 0 }
    ∧ onDataReceived "FREQ:440.0|CENTS:0|NOTE:A"
      = HandlerResult.tuner { frequency := JQ.q 440, noteName := "A", cents := JQ.q 0 }
    ∧ onDataReceived "FREQ:440.0"
      = HandlerResult.tuner { frequency := JQ.q 440, noteName := "", cents := JQ.q 0 }
    ∧ onDataReceived "FREQ:440.0|NOTE:A"
      = HandlerResult.tuner { frequency := JQ.q 440, noteName := "A", cents := JQ.q 0 }
    ∧ onDataReceived "FREQ:"
      = HandlerResult.tuner { frequency := JQ.q 0, noteName := "", cents := JQ.q 0 } := by
  refine ⟨?_, ?_, ?_, ?_, ?_⟩
  · have h : onDataReceived "FREQ:440.0|NOTE:A|CENTS:0"
        = HandlerResult.tuner
            { frequency := jsParseFloat "440.0", noteName := "A", cents := jsParseInt "0" } := rfl
    rw [h, pf440, pi0]
  · have h : onDataReceived "FREQ:440.0|CENTS:0|NOTE:A"
        = HandlerResult.tuner
            { frequency := jsParseFloat "440.0", noteName := "A", cents := jsParseInt "0" } := rfl
    rw [h, pf440, pi0]
  · have h : onDataReceived "FREQ:440.0"
        = HandlerResult.tuner
            { frequency := jsParseFloat "440.0", noteName := "", cents := jsParseInt "0" } := rfl
    rw [h, pf440, pi0]
  · have h : onDataReceived "FREQ:440.0|NOTE:A"
        = HandlerResult.tuner
            { frequency := jsParseFloat "440.0", noteName := "A", cents := jsParseInt "0" } := rfl
    rw [h, pf440, pi0]
  · have h : onDataReceived "FREQ:"
        = HandlerResult.tuner
            { frequency := jsParseFloat "0", noteName := "", cents := jsParseInt "0" } := rfl
    rw [h, pf0, pi0]

/-- Counterexample for C9: on the gate-passing buffer `[1, -1]` the
refinement fires with `best_offset = 0`, so the read index
`best_offset - 1 = -1` is negative — not within the claimed bounds
`0 ≤ index`. -/
theorem refinement_negative_index_cex :
    (autoCorrelate [(1:ℝ), -1] 100).1 = some 0 ∧ (0 : ℤ) - 1 < 0 := by
  rw [autoCorrelate_gate [(1:ℝ), -1] 100 (by norm_num) gate_pair]
  exact ⟨rfl, by decide⟩

/-- Claim C9 (amended): for every buffer of length ≥ 2 passing the RMS gate,
the refinement fires with `best_offset = 0` (fixed at lag 0, where the
correlation is exactly 1); the index `best_offset + 1 = 1` is within bounds,
but `best_offset - 1 = -1` is below the lower bound, and the resulting
undefined read makes the returned frequency `NaN`. -/
theorem refinement_index_oob (buf : List ℝ) (sampleRate : ℝ)
    (h2 : 2 ≤ buf.length) (hg : ¬ jlt (rmsOf buf) (fin (1/100))) :
    (autoCorrelate buf sampleRate).1 = some 0
    ∧ (0 : ℤ) + 1 < (buf.length : ℤ)
    ∧ ¬ (0 : ℤ) ≤ 0 - 1
    ∧ (autoCorrelate buf sampleRate).2 = nan := by
  rw [autoCorrelate_gate buf sampleRate h2 hg]
  have hl : (2 : ℤ) ≤ (buf.length : ℤ) := by exact_mod_cast h2
  exact ⟨rfl, by omega, by decide, rfl⟩

/-- Witness for C9 at the gate-passing buffer `[1, -1]`. -/
theorem refinement_index_oob_witness :
    (2 ≤ ([(1:ℝ), -1]).length ∧ ¬ jlt (rmsOf [(1:ℝ), -1]) (fin (1/100)))
    ∧ ((autoCorrelate [(1:ℝ), -1] 100).1 = some 0
      ∧ (0 : ℤ) + 1 < (([(1:ℝ), -1]).length : ℤ)
      ∧ ¬ (0 : ℤ) ≤ 0 - 1
      ∧ (autoCorrelate [(1:ℝ), -1] 100).2 = nan) :=
  ⟨⟨by norm_num, gate_pair⟩,
    refinement_index_oob [(1:ℝ), -1] 100 (by norm_num) gate_pair⟩

/-- Claim C10: whenever `bpm > 0`, each `nextNote` advances `nextNoteTime` by
the positive amount `60 / bpm`, so the catch-up loop terminates (some finite
fuel suffices for any pair of clock values); and `bpm > 0` is indeed only a
hypothesis — `updateBPM` and `startMetronome` store any tempo verbatim, with
no guard establishing positivity. -/
theorem schedulerLoop_terminates_pos_bpm (s : MetroState) (now : ℚ)
    (hbpm : 0 < s.bpm) :
    ((nextNote s).nextNoteTime = s.nextNoteTime + 60 / s.bpm ∧ 0 < 60 / s.bpm)
    ∧ (∃ fuel, schedulerLoop fuel now s [] ≠ none)
    ∧ (∀ b : ℚ, ∀ t : MetroState,
        (updateBPM b t).bpm = b ∧ (startMetronomeState b now t).bpm = b) := by
  have h60 : 0 < 60 / s.bpm := div_pos (by norm_num) hbpm
  refine ⟨⟨nextNote_time s, h60⟩, ?_, fun b t => ⟨rfl, rfl⟩⟩
  obtain ⟨n, hn⟩ := exists_nat_ge ((now + 1/10 - s.nextNoteTime) / (60 / s.bpm))
  refine ⟨n, schedulerLoop_isSome now n s [] hbpm ?_⟩
  have hmul := (div_le_iff₀ h60).mp hn
  linarith

/-- Witness for C10 at the initial state (`bpm = 120`) and clock time 0. -/
theorem schedulerLoop_terminates_pos_bpm_witness :
    (0 : ℚ) < initState.bpm
    ∧ (((nextNote initState).nextNoteTime = initState.nextNoteTime + 60 / initState.bpm
          ∧ 0 < 60 / initState.bpm)
        ∧ (∃ fuel, schedulerLoop fuel 0 initState [] ≠ none)
        ∧ (∀ b : ℚ, ∀ t : MetroState,
            (updateBPM b t).bpm = b ∧ (startMetronomeState b 0 t).bpm = b)) :=
  ⟨by norm_num [initState], schedulerLoop_terminates_pos_bpm initState 0 (by norm_num [initState])⟩

end Musical
